import Mathlib

/-!
Shallow embedding of the mtree3 directive parser (src/lib.rs).

The source is a chumsky 0.10 combinator grammar over string slices with the
default error type EmptyErr (a fieldless struct carrying no information), and
chrono's DateTime construction for timestamps.  We model:

  - input as List Char, a parser as a function from input to
    Except EmptyErr (result, remaining input);
  - chumsky's just(lit) as literal prefix matching;
  - chumsky's choice as ordered alternatives with backtracking (each
    alternative starts from the same position; the first success wins);
  - chumsky's text::int(10) as a single zero digit, or a nonzero digit
    followed greedily by digits (no sign, no leading zeros);
  - str::parse into u32 / u64 / i64 on a digit run as a bound check
    (overflow is a failure, never truncation);
  - chumsky's text::ident as an ASCII identifier token
    (alphabetic or underscore, then alphanumerics or underscores);
  - chumsky's text::whitespace as zero or more Unicode whitespace chars;
  - chumsky's separated_by as a zero-or-more separated list that rewinds
    the separator when the following element fails;
  - chrono's DateTime::from_timestamp(secs, nsecs): the day computed from
    secs by Euclidean division must land in the NaiveDate range, and nsecs
    must be below 2_000_000_000 (values in [1e9, 2e9) are the leap-second
    representation and are accepted); the result is uniquely determined by
    the (secs, nsecs) pair, which we therefore use as the model of
    DateTime of Utc.

Machine integers are modelled as Nat with explicit bounds: the parsers
reject any digit run whose value exceeds the target width, so no modular
wraparound can occur and Nat with a bound check is exact.
-/

namespace Mtree

/-- Model of chumsky's EmptyErr: the default error type of the source
parsers, a fieldless struct that records nothing about the failure. -/
structure EmptyErr where

/-- A parser consumes a prefix of the input and either fails with an
EmptyErr or returns a value and the remaining input. -/
abbrev Parser (α : Type) : Type := List Char → Except EmptyErr (α × List Char)

/-- chumsky just(lit): match the literal exactly, character by character. -/
def just : List Char → Parser Unit
  | [], s => .ok ((), s)
  | _ :: _, [] => .error ⟨⟩
  | c :: cs, d :: ds => if c = d then just cs ds else .error ⟨⟩

/-- chumsky p.or(q) and the binary step of choice((...)): try p; if it
fails, run q from the same starting position. -/
def por (p q : Parser α) : Parser α := fun s =>
  match p s with
  | .ok res => .ok res
  | .error _ => q s

/-- chumsky p.map(f). -/
def pmap (f : α → β) (p : Parser α) : Parser β := fun s =>
  match p s with
  | .ok (a, r) => .ok (f a, r)
  | .error e => .error e

/-- chumsky p.to(v): run p, discard its output, produce v. -/
def pto (p : Parser α) (v : β) : Parser β := pmap (fun _ => v) p

/-- chumsky p.ignore_then(q). -/
def ignoreThen (p : Parser α) (q : Parser β) : Parser β := fun s =>
  match p s with
  | .ok (_, r) => q r
  | .error e => .error e

/-- chumsky p.then_ignore(q). -/
def thenIgnore (p : Parser α) (q : Parser β) : Parser α := fun s =>
  match p s with
  | .ok (a, r) =>
    match q r with
    | .ok (_, r2) => .ok (a, r2)
    | .error e => .error e
  | .error e => .error e

/-- chumsky p.then(q): sequence, keeping both outputs. -/
def pthen (p : Parser α) (q : Parser β) : Parser (α × β) := fun s =>
  match p s with
  | .ok (a, r) =>
    match q r with
    | .ok (b, r2) => .ok ((a, b), r2)
    | .error e => .error e
  | .error e => .error e

/-- chumsky p.try_map(f) for a fallible f modelled as Option. -/
def tryMapOpt (p : Parser α) (f : α → Option β) : Parser β := fun s =>
  match p s with
  | .ok (a, r) =>
    match f a with
    | some b => .ok (b, r)
    | none => .error ⟨⟩
  | .error e => .error e

/-- chumsky end(): succeed only at the end of input. -/
def endP : Parser Unit := fun s =>
  match s with
  | [] => .ok ((), [])
  | _ :: _ => .error ⟨⟩

/-- Greedy span: the longest run of characters satisfying p, and the rest. -/
def spanP (p : Char → Bool) : List Char → List Char × List Char
  | [] => ([], [])
  | c :: cs =>
    if p c then
      let r := spanP p cs
      (c :: r.1, r.2)
    else ([], c :: cs)

/-- Rust char::is_digit(10), an ASCII decimal digit. -/
def isDigitC (c : Char) : Bool := 48 ≤ c.toNat && c.toNat ≤ 57

/-- Rust char::is_ascii_alphabetic. -/
def isAlphaC (c : Char) : Bool :=
  (65 ≤ c.toNat && c.toNat ≤ 90) || (97 ≤ c.toNat && c.toNat ≤ 122)

/-- First character of a chumsky text::ident token: an ASCII letter or an
underscore (code point 95).  A decimal digit is excluded, both under the
ASCII rule and under the Unicode XID_Start rule. -/
def isIdentStart (c : Char) : Bool := isAlphaC c || c.toNat == 95

/-- Continuation character of a chumsky text::ident token. -/
def isIdentCont (c : Char) : Bool := isAlphaC c || isDigitC c || c.toNat == 95

/-- Rust char::is_whitespace: the Unicode White_Space code points. -/
def isWhitespaceC (c : Char) : Bool :=
  let n := c.toNat
  (9 ≤ n && n ≤ 13) || n == 32 || n == 133 || n == 160 || n == 5760 ||
    (8192 ≤ n && n ≤ 8202) || n == 8232 || n == 8233 || n == 8239 ||
    n == 8287 || n == 12288

/-- chumsky text::int(10).to_slice(): either the single digit zero, or a
nonzero digit followed greedily by digits; anything else fails.  There is
no sign handling and no leading zero. -/
def intRun : Parser (List Char) := fun s =>
  match s with
  | [] => .error ⟨⟩
  | c :: cs =>
    if c = '0' then .ok (['0'], cs)
    else if isDigitC c then
      let r := spanP isDigitC cs
      .ok (c :: r.1, r.2)
    else .error ⟨⟩

/-- Numeric value of an ASCII digit. -/
def digitVal (c : Char) : Nat := c.toNat - 48

/-- Value of a big-endian run of ASCII digits. -/
def digitsToNat (ds : List Char) : Nat := ds.foldl (fun a c => 10 * a + digitVal c) 0

/-- text::int(10).to_slice().try_map(parse): parse the digit run and
reject it when its value exceeds the width of the target integer type
(str::parse returns an overflow error, never a truncated value). -/
def numberP (bound : Nat) : Parser Nat := fun s =>
  match intRun s with
  | .ok (run, rest) =>
    let v := digitsToNat run
    if v ≤ bound then .ok (v, rest) else .error ⟨⟩
  | .error e => .error e

/-- Largest value of Rust u32. -/
def u32Max : Nat := 4294967295

/-- Largest value of Rust u64. -/
def u64Max : Nat := 18446744073709551615

/-- Largest value of Rust i64 (the digit run carries no sign, so parsing
into i64 succeeds exactly for values up to this bound). -/
def i64Max : Nat := 9223372036854775807

/-- chumsky text::ident(): an identifier-shaped token. -/
def identP : Parser (List Char) := fun s =>
  match s with
  | [] => .error ⟨⟩
  | c :: cs =>
    if isIdentStart c then
      let r := spanP isIdentCont cs
      .ok (c :: r.1, r.2)
    else .error ⟨⟩

/-- chumsky text::whitespace(): zero or more whitespace characters.  It
never fails, and in particular succeeds consuming nothing. -/
def whitespaceP : Parser Unit := fun s => .ok ((), (spanP isWhitespaceC s).2)

/-- The seven filesystem entry kinds (enum Type in the source; the name
Type is reserved in Lean). -/
inductive EntryType
  | block
  | char
  | dir
  | fifo
  | file
  | link
  | socket

/-- Model of chrono DateTime of Utc as produced by from_timestamp: the
pair of the seconds and the nanosecond component.  from_timestamp is
injective on the pairs it accepts, so equality of this model coincides
with equality of the chrono values. -/
structure DateTimeUtc where
  secs : Int
  nsecs : Nat

/-- Day count of 1970-01-01 from the common-era reference used by chrono. -/
def unixEpochDay : Int := 719163

/-- Day count of chrono NaiveDate::MIN (January 1 of year -262144). -/
def chronoMinDays : Int := -95746495

/-- Day count of chrono NaiveDate::MAX (December 31 of year 262143). -/
def chronoMaxDays : Int := 95745764

/-- chrono DateTime::from_timestamp(secs, nsecs): the day obtained from
secs by Euclidean division by 86400 must be a representable NaiveDate,
and nsecs must be below 2_000_000_000 (values with the leap-second bit,
in [1_000_000_000, 2_000_000_000), are accepted). -/
def from_timestamp (secs : Int) (nsecs : Nat) : Option DateTimeUtc :=
  if secs.ediv 86400 + unixEpochDay < chronoMinDays ∨
      chronoMaxDays < secs.ediv 86400 + unixEpochDay then none
  else if 2000000000 ≤ nsecs then none
  else some ⟨secs, nsecs⟩

/-- enum Keyword from the source.  Sha256 carries the raw token; Link
carries the path text verbatim (PathBuf::from copies the string and
PathBuf equality on unmodified strings is string equality). -/
inductive Keyword
  | type (t : EntryType)
  | uid (n : Nat)
  | time (dt : DateTimeUtc)
  | size (n : Nat)
  | sha256 (digest : List Char)
  | link (path : List Char)

/-- enum Command from the source. -/
inductive Command
  | set (kws : List Keyword)
  | unset

/-- fn parse_type: choice over the seven literal type tags. -/
def parse_type : Parser EntryType :=
  por (pto (just ("block".toList)) EntryType.block)
    (por (pto (just ("char".toList)) EntryType.char)
      (por (pto (just ("dir".toList)) EntryType.dir)
        (por (pto (just ("fifo".toList)) EntryType.fifo)
          (por (pto (just ("file".toList)) EntryType.file)
            (por (pto (just ("link".toList)) EntryType.link)
              (pto (just ("socket".toList)) EntryType.socket))))))

/-- fn parse_timestamp: an i64 digit run, a literal dot, a u32 digit run,
then the fallible combination step DateTime::from_timestamp. -/
def parse_timestamp : Parser DateTimeUtc :=
  tryMapOpt (pthen (thenIgnore (numberP i64Max) (just (".".toList))) (numberP u32Max))
    (fun p => from_timestamp (Int.ofNat p.1) p.2)

/-- fn parse_path: any().repeated().to_slice() consumes the entire
remaining input verbatim. -/
def parse_path : Parser (List Char) := fun s => .ok (s, [])

/-- fn parse_keyword: ordered choice over the six name=value forms. -/
def parse_keyword : Parser Keyword :=
  por (pmap Keyword.type
        (ignoreThen (just ("type".toList)) (ignoreThen (just ("=".toList)) parse_type)))
    (por (pmap Keyword.uid
          (ignoreThen (just ("uid".toList)) (ignoreThen (just ("=".toList)) (numberP u32Max))))
      (por (pmap Keyword.time
            (ignoreThen (just ("time".toList)) (ignoreThen (just ("=".toList)) parse_timestamp)))
        (por (pmap Keyword.size
              (ignoreThen (just ("size".toList)) (ignoreThen (just ("=".toList)) (numberP u64Max))))
          (por (pmap Keyword.sha256
                (ignoreThen (por (just ("sha256digest".toList)) (just ("sha256".toList)))
                  (ignoreThen (just ("=".toList)) identP)))
            (pmap Keyword.link
              (ignoreThen (just ("link".toList)) (ignoreThen (just ("=".toList)) parse_path)))))))

/-- Iteration of separated_by after a first element has been parsed: try
separator then element; if either fails, rewind to before the separator
and stop.  Fuel only bounds the iteration count; each successful
iteration of the keyword parser consumes at least one character, so the
initial fuel of input length plus one is never exhausted. -/
def sepByAux (p : Parser α) (sep : Parser Unit) : Nat → List α → List Char → List α × List Char
  | 0, acc, s => (acc.reverse, s)
  | fuel + 1, acc, s =>
    match sep s with
    | .error _ => (acc.reverse, s)
    | .ok (_, s1) =>
      match p s1 with
      | .error _ => (acc.reverse, s)
      | .ok (a, s2) => sepByAux p sep fuel (a :: acc) s2

/-- chumsky p.separated_by(sep).collect(): zero or more elements; a
failing first element yields the empty list. -/
def sepBy (p : Parser α) (sep : Parser Unit) : Parser (List α) := fun s =>
  match p s with
  | .error _ => .ok ([], s)
  | .ok (a, s1) =>
    let r := sepByAux p sep (s1.length + 1) [a] s1
    .ok (r.1, r.2)

/-- fn parse_keywords: keywords separated by text::whitespace(). -/
def parse_keywords : Parser (List Keyword) := sepBy parse_keyword whitespaceP

/-- fn parse_command: the slash sentinel, then unset or set followed by
whitespace and a keyword sequence, then end of input. -/
def parse_command : Parser Command :=
  thenIgnore
    (ignoreThen (just ("/".toList))
      (por (pto (just ("unset".toList)) Command.unset)
        (pmap Command.set
          (ignoreThen (just ("set".toList)) (ignoreThen whitespaceP parse_keywords)))))
    endP

/-- The literal token of each entry type, as matched by parse_type. -/
def typeLit : EntryType → List Char
  | .block => "block".toList
  | .char => "char".toList
  | .dir => "dir".toList
  | .fifo => "fifo".toList
  | .file => "file".toList
  | .link => "link".toList
  | .socket => "socket".toList

/-- A list that does not begin with an ASCII digit (used to delimit the
greedy digit run of text::int). -/
def noDigitStart : List Char → Prop
  | [] => True
  | c :: _ => isDigitC c = false

/-- The decimal rendering of a natural number: its base-10 digits from
most to least significant. -/
def natRender (n : Nat) : List Char :=
  if n = 0 then ['0'] else ((Nat.digits 10 n).map Nat.digitChar).reverse

/-! ### Helper lemmas about the combinators -/

theorem just_eq_ok (lit : List Char) : ∀ (s r : List Char), just lit s = .ok ((), r) → s = lit ++ r := by
  induction lit with
  | nil =>
    intro s r h
    simp only [just, Except.ok.injEq, Prod.mk.injEq, true_and] at h
    simp [h]
  | cons c cs ih =>
    intro s r h
    cases s with
    | nil => simp [just] at h
    | cons d ds =>
      simp only [just] at h
      by_cases hc : c = d
      · rw [if_pos hc] at h
        have := ih ds r h
        simp [← hc, this]
      · rw [if_neg hc] at h
        simp at h

theorem pto_ok {β : Type} (lit : List Char) (val : β) (v : List Char) (b : β) (r : List Char)
    (h : pto (just lit) val v = .ok (b, r)) : v = lit ++ r ∧ b = val := by
  simp only [pto, pmap] at h
  cases hj : just lit v with
  | ok p =>
    obtain ⟨u, r1⟩ := p
    rw [hj] at h
    simp only [Except.ok.injEq, Prod.mk.injEq] at h
    refine ⟨?_, h.1.symm⟩
    rw [← h.2]
    exact just_eq_ok lit v r1 hj
  | error e =>
    rw [hj] at h
    simp at h

theorem por_ok_cases {α : Type} (p q : Parser α) (v : List Char) (res : α × List Char)
    (h : por p q v = .ok res) : p v = .ok res ∨ (p v = .error ⟨⟩ ∧ q v = .ok res) := by
  simp only [por] at h
  cases hp : p v with
  | ok r =>
    rw [hp] at h
    simp only [Except.ok.injEq] at h
    left
    rw [h]
  | error e =>
    cases e
    rw [hp] at h
    right
    exact ⟨rfl, h⟩

theorem parse_type_ok (v : List Char) (t : EntryType) (r : List Char)
    (h : parse_type v = .ok (t, r)) : v = typeLit t ++ r := by
  unfold parse_type at h
  rcases por_ok_cases _ _ _ _ h with h1 | ⟨_, h⟩
  · obtain ⟨hv, hb⟩ := pto_ok _ _ _ _ _ h1
    subst hb
    exact hv
  rcases por_ok_cases _ _ _ _ h with h1 | ⟨_, h⟩
  · obtain ⟨hv, hb⟩ := pto_ok _ _ _ _ _ h1
    subst hb
    exact hv
  rcases por_ok_cases _ _ _ _ h with h1 | ⟨_, h⟩
  · obtain ⟨hv, hb⟩ := pto_ok _ _ _ _ _ h1
    subst hb
    exact hv
  rcases por_ok_cases _ _ _ _ h with h1 | ⟨_, h⟩
  · obtain ⟨hv, hb⟩ := pto_ok _ _ _ _ _ h1
    subst hb
    exact hv
  rcases por_ok_cases _ _ _ _ h with h1 | ⟨_, h⟩
  · obtain ⟨hv, hb⟩ := pto_ok _ _ _ _ _ h1
    subst hb
    exact hv
  rcases por_ok_cases _ _ _ _ h with h1 | ⟨_, h⟩
  · obtain ⟨hv, hb⟩ := pto_ok _ _ _ _ _ h1
    subst hb
    exact hv
  · obtain ⟨hv, hb⟩ := pto_ok _ _ _ _ _ h
    subst hb
    exact hv

/-! ### Decimal digit runs round-trip through the integer parsers -/

theorem digitChar_isDigit : ∀ d : Nat, d < 10 → isDigitC (Nat.digitChar d) = true := by decide

theorem digitChar_ne_zero : ∀ d : Nat, d < 10 → d ≠ 0 → Nat.digitChar d ≠ '0' := by decide

theorem digitVal_digitChar : ∀ d : Nat, d < 10 → digitVal (Nat.digitChar d) = d := by decide

theorem noDigitStart_head (rest : List Char) (h : noDigitStart rest) :
    ∀ c cs, rest = c :: cs → isDigitC c = false := by
  intro c cs hr
  subst hr
  exact h

theorem spanP_append (p : Char → Bool) : ∀ (ds rest : List Char),
    (∀ c ∈ ds, p c = true) → (∀ c cs, rest = c :: cs → p c = false) →
    spanP p (ds ++ rest) = (ds, rest) := by
  intro ds
  induction ds with
  | nil =>
    intro rest _ hrest
    cases rest with
    | nil => rfl
    | cons c cs => simp [spanP, hrest c cs rfl]
  | cons d ds ih =>
    intro rest hds hrest
    have hd : p d = true := hds d (by simp)
    simp only [List.cons_append, spanP, hd, if_true, List.append_eq]
    rw [ih rest (fun c hc => hds c (by simp [hc])) hrest]

theorem foldl_digits_reverse : ∀ (L : List Nat), (∀ d ∈ L, d < 10) →
    digitsToNat ((L.map Nat.digitChar).reverse) = Nat.ofDigits 10 L := by
  intro L
  induction L with
  | nil => intro _; rfl
  | cons d L ih =>
    intro h
    have hd : d < 10 := h d (by simp)
    simp only [List.map_cons, List.reverse_cons]
    unfold digitsToNat
    rw [List.foldl_append]
    simp only [List.foldl_cons, List.foldl_nil]
    have hl := ih (fun e he => h e (by simp [he]))
    unfold digitsToNat at hl
    rw [hl, digitVal_digitChar d hd, Nat.ofDigits_cons]
    ring

theorem digitsToNat_render (n : Nat) : digitsToNat (natRender n) = n := by
  unfold natRender
  by_cases h0 : n = 0
  · rw [if_pos h0, h0]
    rfl
  · rw [if_neg h0]
    rw [foldl_digits_reverse _ (fun d hd => Nat.digits_lt_base (by norm_num) hd)]
    exact Nat.ofDigits_digits 10 n

theorem intRun_render (n : Nat) (rest : List Char) (hrest : noDigitStart rest) :
    intRun (natRender n ++ rest) = .ok (natRender n, rest) := by
  by_cases h0 : n = 0
  · subst h0
    rfl
  · obtain ⟨L0, d, hL⟩ := (Nat.digits 10 n).eq_nil_or_concat.resolve_left
      (Nat.digits_ne_nil_iff_ne_zero.mpr h0)
    have hdmem : d ∈ Nat.digits 10 n := by rw [hL]; simp
    have hd10 : d < 10 := Nat.digits_lt_base (by norm_num) hdmem
    have hdz : d ≠ 0 := by
      have h1 := Nat.getLast_digit_ne_zero 10 h0
      have h2 : (Nat.digits 10 n).getLast (Nat.digits_ne_nil_iff_ne_zero.mpr h0) = d := by
        have h3 : (Nat.digits 10 n).getLast? = some d := by
          rw [hL]
          simp
        rwa [List.getLast?_eq_getLast _ (Nat.digits_ne_nil_iff_ne_zero.mpr h0),
          Option.some.injEq] at h3
      rwa [h2] at h1
    have hren : natRender n = Nat.digitChar d :: (L0.map Nat.digitChar).reverse := by
      unfold natRender
      rw [if_neg h0, hL]
      simp
    have hcs : ∀ c ∈ (L0.map Nat.digitChar).reverse, isDigitC c = true := by
      intro c hc
      simp only [List.mem_reverse, List.mem_map] at hc
      obtain ⟨e, he, rfl⟩ := hc
      have hmem : e ∈ Nat.digits 10 n := by rw [hL]; simp [he]
      exact digitChar_isDigit e (Nat.digits_lt_base (by norm_num) hmem)
    rw [hren]
    simp only [intRun, List.cons_append]
    rw [if_neg (digitChar_ne_zero d hd10 hdz), digitChar_isDigit d hd10]
    simp only [if_true]
    rw [spanP_append isDigitC _ rest hcs (noDigitStart_head rest hrest)]

theorem numberP_render (bound n : Nat) (rest : List Char) (hb : n ≤ bound)
    (hrest : noDigitStart rest) :
    numberP bound (natRender n ++ rest) = .ok (n, rest) := by
  simp only [numberP, intRun_render n rest hrest, digitsToNat_render, if_pos hb]

/-! ### Claim theorems, first batch -/

/-- C1 counterexample: the keyword-sequence decoder does not fail on two
adjacent assignments with no whitespace between them; the input
type=dirsize=384 parses into the two-element list of a type field and a
size field, refuting the claim that such inputs must fail. -/
theorem c1_counterexample :
    parse_keywords ("type=dirsize=384".toList) =
      .ok ([Keyword.type EntryType.dir, Keyword.size 384], []) := rfl

/-- C1 (amended): whitespace runs between keyword assignments are
optional, not mandatory: the separator used by parse_keywords is
text::whitespace(), which always succeeds, consuming a possibly empty
whitespace run; with a single space the same two-keyword input parses to
the same list. -/
theorem c1_adjacent_keywords_ok :
    parse_keywords ("type=dir size=384".toList) =
      .ok ([Keyword.type EntryType.dir, Keyword.size 384], []) ∧
    (∀ s : List Char, whitespaceP s = .ok ((), (spanP isWhitespaceC s).2)) :=
  ⟨rfl, fun _ => rfl⟩

/-- C3: the code, not the claim, is at fault: the timestamp decoder is
built on text::int, which matches only an unsigned digit run, so every
input whose seconds component is rendered with a leading minus sign is
rejected, although the specified design intent (acknowledged by the TODO
comment in parse_timestamp) is a signed seconds component allowing
pre-epoch times.  In particular the input -1.0 fails. -/
theorem c3_negative_seconds_fail :
    (∀ s : List Char, parse_timestamp ('-' :: s) = .error ⟨⟩) ∧
    parse_timestamp ("-1.0".toList) = .error ⟨⟩ :=
  ⟨fun _ => rfl, rfl⟩

/-- C4 counterexample: the input /set, with nothing after the word set,
parses successfully to Set with an empty keyword list, refuting the
claim that it must fail. -/
theorem c4_counterexample : parse_command ("/set".toList) = .ok (Command.set [], []) := rfl

/-- C4 (amended): after the sentinel and the word set, the whitespace and
the keyword sequence are both allowed to be empty, so /set succeeds with
Set of the empty list; /setx and a command missing the sentinel still
fail, and /unset still succeeds with Unset. -/
theorem c4_command_forms :
    parse_command ("/set".toList) = .ok (Command.set [], []) ∧
    parse_command ("/setx".toList) = .error ⟨⟩ ∧
    parse_command ("set type=dir".toList) = .error ⟨⟩ ∧
    parse_command ("/unset".toList) = .ok (Command.unset, []) :=
  ⟨rfl, rfl, rfl, rfl⟩

/-- C8 counterexample: the decoder fails on an input whose error position
is offset 0 and on an input whose error position is offset 6, and in
both cases the produced failure value is the same fieldless EmptyErr;
the failure value carries neither an offset nor an indication of what
was expected, refuting the claim. -/
theorem c8_counterexample :
    parse_command ("0123".toList) = .error ⟨⟩ ∧
    parse_command ("/unset!".toList) = .error ⟨⟩ :=
  ⟨rfl, rfl⟩

/-- C8 (amended): the source parsers use chumsky's default error type
EmptyErr, a fieldless struct, so every failure of the command decoder
carries the same information-free error value: any two failures, at any
positions in any inputs, produce equal error values. -/
theorem c8_empty_error (s1 s2 : List Char) (e1 e2 : EmptyErr)
    (_h1 : parse_command s1 = .error e1) (_h2 : parse_command s2 = .error e2) : e1 = e2 := rfl

/-- Witness for c8_empty_error at two concrete failing inputs. -/
theorem c8_witness :
    parse_command ("x".toList) = .error ⟨⟩ ∧ (⟨⟩ : EmptyErr) = ⟨⟩ :=
  ⟨rfl, c8_empty_error ("x".toList) ("/q".toList) ⟨⟩ ⟨⟩ rfl rfl⟩

/-- C9: the path decoder used for the link keyword consumes the entire
remaining input, whitespace included: for every rest, link= followed by
rest yields Link of rest verbatim with nothing left over, and inside a
keyword sequence any later name=value text is swallowed into the link
path, as the concrete sequence link=a size=3 shows. -/
theorem c9_link_consumes_rest :
    (∀ rest : List Char, parse_keyword ("link=".toList ++ rest) = .ok (Keyword.link rest, [])) ∧
    parse_keywords ("link=a size=3".toList) = .ok ([Keyword.link ("a size=3".toList)], []) :=
  ⟨fun _ => rfl, rfl⟩

/-! ### Reductions of parse_keyword on each recognized name -/

theorem parse_keyword_uid_ok (v : List Char) (n : Nat) (r : List Char)
    (h : numberP u32Max v = .ok (n, r)) :
    parse_keyword ("uid=".toList ++ v) = .ok (Keyword.uid n, r) := by
  have j1 : just ("type".toList) ("uid=".toList ++ v) = .error ⟨⟩ := rfl
  have j2 : just ("uid".toList) ("uid=".toList ++ v) = .ok ((), '=' :: v) := rfl
  have j3 : just ("=".toList) ('=' :: v) = .ok ((), v) := rfl
  simp only [parse_keyword, por, pmap, ignoreThen, j1, j2, j3, h]

theorem parse_keyword_size_ok (v : List Char) (n : Nat) (r : List Char)
    (h : numberP u64Max v = .ok (n, r)) :
    parse_keyword ("size=".toList ++ v) = .ok (Keyword.size n, r) := by
  have j1 : just ("type".toList) ("size=".toList ++ v) = .error ⟨⟩ := rfl
  have j2 : just ("uid".toList) ("size=".toList ++ v) = .error ⟨⟩ := rfl
  have j3 : just ("time".toList) ("size=".toList ++ v) = .error ⟨⟩ := rfl
  have j4 : just ("size".toList) ("size=".toList ++ v) = .ok ((), '=' :: v) := rfl
  have j5 : just ("=".toList) ('=' :: v) = .ok ((), v) := rfl
  simp only [parse_keyword, por, pmap, ignoreThen, j1, j2, j3, j4, j5, h]

theorem parse_keyword_type_ok_elim (v : List Char) (k : Keyword) (r : List Char)
    (h : parse_keyword ("type=".toList ++ v) = .ok (k, r)) :
    ∃ t, k = Keyword.type t ∧ parse_type v = .ok (t, r) := by
  have j1 : just ("type".toList) ("type=".toList ++ v) = .ok ((), '=' :: v) := rfl
  have j2 : just ("=".toList) ('=' :: v) = .ok ((), v) := rfl
  have j3 : just ("uid".toList) ("type=".toList ++ v) = .error ⟨⟩ := rfl
  have j4 : just ("time".toList) ("type=".toList ++ v) = .error ⟨⟩ := rfl
  have j5 : just ("size".toList) ("type=".toList ++ v) = .error ⟨⟩ := rfl
  have j6 : just ("sha256digest".toList) ("type=".toList ++ v) = .error ⟨⟩ := rfl
  have j7 : just ("sha256".toList) ("type=".toList ++ v) = .error ⟨⟩ := rfl
  have j8 : just ("link".toList) ("type=".toList ++ v) = .error ⟨⟩ := rfl
  simp only [parse_keyword, por, pmap, ignoreThen, j1, j2, j3, j4, j5, j6, j7, j8] at h
  cases hpt : parse_type v with
  | ok p =>
    obtain ⟨t, r1⟩ := p
    rw [hpt] at h
    simp only [Except.ok.injEq, Prod.mk.injEq] at h
    obtain ⟨hk, hr⟩ := h
    subst hr
    exact ⟨t, hk.symm, rfl⟩
  | error e =>
    rw [hpt] at h
    simp at h

theorem parse_keyword_sha_short (d : List Char) :
    parse_keyword ("sha256=".toList ++ d) =
      (match identP d with
       | .ok (a, r) => .ok (Keyword.sha256 a, r)
       | .error _ => .error ⟨⟩) := by
  have j1 : just ("type".toList) ("sha256=".toList ++ d) = .error ⟨⟩ := rfl
  have j2 : just ("uid".toList) ("sha256=".toList ++ d) = .error ⟨⟩ := rfl
  have j3 : just ("time".toList) ("sha256=".toList ++ d) = .error ⟨⟩ := rfl
  have j4 : just ("size".toList) ("sha256=".toList ++ d) = .error ⟨⟩ := rfl
  have j5 : just ("sha256digest".toList) ("sha256=".toList ++ d) = .error ⟨⟩ := rfl
  have j6 : just ("sha256".toList) ("sha256=".toList ++ d) = .ok ((), '=' :: d) := rfl
  have j7 : just ("=".toList) ('=' :: d) = .ok ((), d) := rfl
  have j8 : just ("link".toList) ("sha256=".toList ++ d) = .error ⟨⟩ := rfl
  simp only [parse_keyword, por, pmap, ignoreThen, j1, j2, j3, j4, j5, j6, j7, j8]
  cases h : identP d with
  | ok p =>
    obtain ⟨a, r⟩ := p
    simp [h]
  | error e => simp [h]

theorem parse_keyword_sha_long (d : List Char) :
    parse_keyword ("sha256digest=".toList ++ d) =
      (match identP d with
       | .ok (a, r) => .ok (Keyword.sha256 a, r)
       | .error _ => .error ⟨⟩) := by
  have j1 : just ("type".toList) ("sha256digest=".toList ++ d) = .error ⟨⟩ := rfl
  have j2 : just ("uid".toList) ("sha256digest=".toList ++ d) = .error ⟨⟩ := rfl
  have j3 : just ("time".toList) ("sha256digest=".toList ++ d) = .error ⟨⟩ := rfl
  have j4 : just ("size".toList) ("sha256digest=".toList ++ d) = .error ⟨⟩ := rfl
  have j5 : just ("sha256digest".toList) ("sha256digest=".toList ++ d) = .ok ((), '=' :: d) := rfl
  have j6 : just ("=".toList) ('=' :: d) = .ok ((), d) := rfl
  have j7 : just ("link".toList) ("sha256digest=".toList ++ d) = .error ⟨⟩ := rfl
  simp only [parse_keyword, por, pmap, ignoreThen, j1, j2, j3, j4, j5, j6, j7]
  cases h : identP d with
  | ok p =>
    obtain ⟨a, r⟩ := p
    simp [h]
  | error e => simp [h]

theorem digit_not_identStart (c : Char) (h : isDigitC c = true) : isIdentStart c = false := by
  unfold isDigitC at h
  unfold isIdentStart isAlphaC
  simp only [Bool.and_eq_true, decide_eq_true_eq] at h
  simp only [Bool.or_eq_false_iff, Bool.and_eq_false_iff, decide_eq_false_iff_not,
    beq_eq_false_iff_ne, ne_eq]
  omega

theorem tryMapOpt_ok {α β : Type} (p : Parser α) (f : α → Option β) (s : List Char)
    (b : β) (r : List Char) (h : tryMapOpt p f s = .ok (b, r)) :
    ∃ a r1, p s = .ok (a, r1) ∧ f a = some b := by
  unfold tryMapOpt at h
  split at h
  next a r1 heq =>
    split at h
    next b1 hf =>
      simp only [Except.ok.injEq, Prod.mk.injEq] at h
      exact ⟨a, r1, heq, by rw [hf, h.1]⟩
    next hf => exact absurd h (by simp)
  next e heq => exact absurd h (by simp)

theorem from_timestamp_nsecs (secs : Int) (nsecs : Nat) (dt : DateTimeUtc)
    (h : from_timestamp secs nsecs = some dt) : dt.nsecs < 2000000000 := by
  unfold from_timestamp at h
  split at h
  · exact absurd h (by simp)
  · split at h
    · exact absurd h (by simp)
    · rename_i hn
      simp only [Option.some.injEq] at h
      subst h
      show nsecs < 2000000000
      omega

/-! ### Claim theorems, second batch -/

/-- C2 counterexample: the input 0.1500000000 has both numeric runs
within their integer widths and a nanosecond value of 1500000000, which
is at least 1000000000, yet the timestamp decoder succeeds: chrono's
combination step accepts nanosecond values up to 1999999999 as the
leap-second representation, refuting the claim that every value at or
above 1000000000 is rejected. -/
theorem c2_counterexample :
    parse_timestamp ("0.1500000000".toList) = .ok (⟨0, 1500000000⟩, []) := rfl

/-- C2 (amended): the combination step rejects nanosecond values at or
above 2000000000 rather than 1000000000 (values in between are chrono
leap-second instants): the well-formed input 0.2000000000, whose
nanosecond run fits in 32 bits, fails, and every successful decode
carries a nanosecond value below 2000000000, never a truncated or
adjusted one. -/
theorem c2_nsec_bound :
    parse_timestamp ("0.2000000000".toList) = .error ⟨⟩ ∧
    ∀ (s : List Char) (v : DateTimeUtc) (rest : List Char),
      parse_timestamp s = .ok (v, rest) → v.nsecs < 2000000000 := by
  refine ⟨rfl, ?_⟩
  intro s v rest h
  unfold parse_timestamp at h
  obtain ⟨a, r1, -, hf⟩ := tryMapOpt_ok _ _ s v rest h
  exact from_timestamp_nsecs _ _ _ hf

/-- Witness for c2_nsec_bound: its universal part applied to the
concrete successful decode of 0.1500000000. -/
theorem c2_witness :
    parse_timestamp ("0.2000000000".toList) = .error ⟨⟩ ∧
    (DateTimeUtc.mk 0 1500000000).nsecs < 2000000000 :=
  ⟨c2_nsec_bound.1, c2_nsec_bound.2 ("0.1500000000".toList) ⟨0, 1500000000⟩ [] rfl⟩

/-- C5: each of the seven type literals decodes through the keyword
decoder to the corresponding entry type, and conversely any input of the
form type= followed by a value that the keyword decoder consumes
entirely is exactly one of the seven literals with its corresponding
constructor: matching is exact and case-sensitive, so no other string
decodes as a type value. -/
theorem c5_type_literals :
    (parse_keyword ("type=block".toList) = .ok (Keyword.type EntryType.block, []) ∧
     parse_keyword ("type=char".toList) = .ok (Keyword.type EntryType.char, []) ∧
     parse_keyword ("type=dir".toList) = .ok (Keyword.type EntryType.dir, []) ∧
     parse_keyword ("type=fifo".toList) = .ok (Keyword.type EntryType.fifo, []) ∧
     parse_keyword ("type=file".toList) = .ok (Keyword.type EntryType.file, []) ∧
     parse_keyword ("type=link".toList) = .ok (Keyword.type EntryType.link, []) ∧
     parse_keyword ("type=socket".toList) = .ok (Keyword.type EntryType.socket, [])) ∧
    ∀ (v : List Char) (k : Keyword), parse_keyword ("type=".toList ++ v) = .ok (k, []) →
      ∃ t, k = Keyword.type t ∧ v = typeLit t := by
  refine ⟨⟨rfl, rfl, rfl, rfl, rfl, rfl, rfl⟩, ?_⟩
  intro v k h
  obtain ⟨t, hk, hpt⟩ := parse_keyword_type_ok_elim v k [] h
  refine ⟨t, hk, ?_⟩
  have hv := parse_type_ok v t [] hpt
  simpa using hv

/-- Witness for c5_type_literals: its converse part applied to the
concrete input type=dir. -/
theorem c5_witness :
    ∃ t, Keyword.type EntryType.dir = Keyword.type t ∧ "dir".toList = typeLit t :=
  c5_type_literals.2 ("dir".toList) (Keyword.type EntryType.dir) rfl

/-- C6: every value representable in the target width round-trips: for
n below 2 to the 32nd, uid= followed by the decimal rendering of n
decodes to Uid n, and for n below 2 to the 64th, size= followed by the
rendering of n decodes to Size n; the digit run 4294967296, which
exceeds the 32-bit width, makes the keyword decoder fail rather than
truncate. -/
theorem c6_numeric_fields (n : Nat) :
    (n < 4294967296 → parse_keyword ("uid=".toList ++ natRender n) = .ok (Keyword.uid n, [])) ∧
    (n < 18446744073709551616 →
      parse_keyword ("size=".toList ++ natRender n) = .ok (Keyword.size n, [])) ∧
    parse_keyword ("uid=4294967296".toList) = .error ⟨⟩ := by
  refine ⟨fun h => ?_, fun h => ?_, rfl⟩
  · apply parse_keyword_uid_ok
    have hb : n ≤ u32Max := by unfold u32Max; omega
    have hr := numberP_render u32Max n [] hb trivial
    rwa [List.append_nil] at hr
  · apply parse_keyword_size_ok
    have hb : n ≤ u64Max := by unfold u64Max; omega
    have hr := numberP_render u64Max n [] hb trivial
    rwa [List.append_nil] at hr

/-- Witness for c6_numeric_fields at the concrete value 384. -/
theorem c6_witness :
    parse_keyword ("uid=".toList ++ natRender 384) = .ok (Keyword.uid 384, []) ∧
    parse_keyword ("uid=4294967296".toList) = .error ⟨⟩ :=
  ⟨(c6_numeric_fields 384).1 (by decide), (c6_numeric_fields 384).2.2⟩

/-- C7: for every digest string the keyword decoder gives identical
results on sha256= and sha256digest= spellings: both prefixes reach the
same alternative, whose longer spelling is tried before the shorter one
so that sha256digest= is never consumed as sha256 followed by a stray
value; whatever one spelling produces, value and leftover alike, the
other produces too. -/
theorem c7_sha_spellings (d : List Char) :
    parse_keyword ("sha256=".toList ++ d) = parse_keyword ("sha256digest=".toList ++ d) := by
  rw [parse_keyword_sha_short, parse_keyword_sha_long]

/-- C10: the digest value is an identifier-shaped token, so a digest
beginning with a decimal digit is rejected under both spellings even
when it consists only of lowercase hex characters. -/
theorem c10_digit_digest (c : Char) (d : List Char) (h : isDigitC c = true) :
    parse_keyword ("sha256=".toList ++ (c :: d)) = .error ⟨⟩ ∧
    parse_keyword ("sha256digest=".toList ++ (c :: d)) = .error ⟨⟩ := by
  have hid : identP (c :: d) = .error ⟨⟩ := by
    have hni := digit_not_identStart c h
    simp [identP, hni]
  constructor
  · rw [parse_keyword_sha_short, hid]
  · rw [parse_keyword_sha_long, hid]

/-- Witness for c10_digit_digest at the hex digest 0f. -/
theorem c10_witness :
    parse_keyword ("sha256=".toList ++ ('0' :: "f".toList)) = .error ⟨⟩ ∧
    parse_keyword ("sha256digest=".toList ++ ('0' :: "f".toList)) = .error ⟨⟩ :=
  c10_digit_digest '0' ("f".toList) rfl

end Mtree
